import Mathlib

/-!
# A verification development for a small FAT16 image reader

This file gives a shallow embedding of the reader's Python source
(`fat16_reader.py`, `directory_entry.py`, `file_info.py`) and proves
properties of it.  The image is a list of bytes (`List Nat`), offsets are
integers (Python indices may be negative), and every fallible operation
returns `Except Err _` where `Err` enumerates the run-time failures the
source can raise.  Loops that the source leaves unbounded (the FAT chain
walk) take an explicit fuel argument; exhausting the fuel is reported as
`Err.outOfFuel` and models divergence of the original loop.
-/

set_option autoImplicit false
set_option maxRecDepth 10000

namespace Fat16

/-- Run-time failures of the embedded reader.

* `structError` models Python `struct.error` (unpack of a buffer of the
  wrong size), `indexError` models `IndexError` from `bytes[i]` /
  `list[i]`, `unicodeDecodeError` models `UnicodeDecodeError` from
  `bytes.decode("utf-8")`, and `nameError` models the
  `UnboundLocalError` raised when `open_file` returns its local variable
  `file` without having assigned it.
* `notADirectoryError` and `notAFileError` are the reader's own
  exception classes `NotADirectoryException` / `NotAFileException`.
* `outOfFuel` marks exhaustion of the fuel given to the (unbounded in the
  source) FAT chain walk. -/
inductive Err where
  | structError
  | indexError
  | unicodeDecodeError
  | nameError
  | notADirectoryError
  | notAFileError
  | outOfFuel
  deriving DecidableEq, Repr

/-- Python slicing `l[a:b]` on a byte string: negative indices count from
the end, and out-of-range bounds are clamped (slicing never raises). -/
def py_slice (l : List Nat) (a b : Int) : List Nat :=
  let n : Int := l.length
  let a' : Nat := if a < 0 then (max (n + a) 0).toNat else (min a n).toNat
  let b' : Nat := if b < 0 then (max (n + b) 0).toNat else (min b n).toNat
  (l.take b').drop a'

/-- Python indexing `l[i]` on a byte string: a negative index counts from
the end; an out-of-range index raises `IndexError`. -/
def byte_at (l : List Nat) (i : Int) : Except Err Nat :=
  let j : Int := if i < 0 then (l.length : Int) + i else i
  if h : 0 ≤ j ∧ j < (l.length : Int) then
    .ok (l.get ⟨j.toNat, by omega⟩)
  else
    .error .indexError

/-- `struct.unpack("<H", image[offset:offset+2])[0]`: little-endian
unsigned 16-bit read; `struct.error` unless the slice has exactly 2
bytes (the method `Fat16Reader._read_ushort`). -/
def read_ushort (image : List Nat) (offset : Int) : Except Err Nat :=
  match py_slice image offset (offset + 2) with
  | [b0, b1] => .ok (b0 + b1 * 256)
  | _ => .error .structError

/-- `struct.unpack("<I", image[offset:offset+4])[0]`: little-endian
unsigned 32-bit read; `struct.error` unless the slice has exactly 4
bytes (used for the file size field). -/
def read_uint (image : List Nat) (offset : Int) : Except Err Nat :=
  match py_slice image offset (offset + 4) with
  | [b0, b1, b2, b3] => .ok (b0 + b1 * 256 + b2 * 65536 + b3 * 16777216)
  | _ => .error .structError

/-- The code points Python's `str.strip()` removes. -/
def is_py_space (c : Nat) : Bool :=
  c ∈ [9, 10, 11, 12, 13, 28, 29, 30, 31, 32, 0x85, 0xA0, 0x1680,
       0x2000, 0x2001, 0x2002, 0x2003, 0x2004, 0x2005, 0x2006, 0x2007,
       0x2008, 0x2009, 0x200A, 0x2028, 0x2029, 0x202F, 0x205F, 0x3000]

/-- Python `str.strip()` on a list of code points. -/
def py_strip (l : List Nat) : List Nat :=
  ((l.dropWhile is_py_space).reverse.dropWhile is_py_space).reverse

/-- Python `bytes.decode("utf-8")`: strict UTF-8 decoding to code points.
Returns `none` (`UnicodeDecodeError`) on an invalid start byte, a
truncated sequence, a bad continuation byte, an overlong encoding, a
surrogate, or a code point above `0x10FFFF`. -/
def utf8_decode : List Nat → Option (List Nat)
  | [] => some []
  | b :: rest =>
    if b < 0x80 then
      (utf8_decode rest).map (fun cs => b :: cs)
    else if b < 0xC2 then
      none
    else if b < 0xE0 then
      match rest with
      | b2 :: rest2 =>
        if 0x80 ≤ b2 ∧ b2 < 0xC0 then
          (utf8_decode rest2).map (fun cs => ((b - 0xC0) * 0x40 + (b2 - 0x80)) :: cs)
        else none
      | [] => none
    else if b < 0xF0 then
      match rest with
      | b2 :: b3 :: rest3 =>
        let lo := if b = 0xE0 then 0xA0 else 0x80
        let hi := if b = 0xED then 0xA0 else 0xC0
        if (lo ≤ b2 ∧ b2 < hi) ∧ (0x80 ≤ b3 ∧ b3 < 0xC0) then
          (utf8_decode rest3).map
            (fun cs => ((b - 0xE0) * 0x1000 + (b2 - 0x80) * 0x40 + (b3 - 0x80)) :: cs)
        else none
      | _ => none
    else if b < 0xF5 then
      match rest with
      | b2 :: b3 :: b4 :: rest4 =>
        let lo := if b = 0xF0 then 0x90 else 0x80
        let hi := if b = 0xF4 then 0x90 else 0xC0
        if (lo ≤ b2 ∧ b2 < hi) ∧ (0x80 ≤ b3 ∧ b3 < 0xC0) ∧ (0x80 ≤ b4 ∧ b4 < 0xC0) then
          (utf8_decode rest4).map
            (fun cs => ((b - 0xF0) * 0x40000 + (b2 - 0x80) * 0x1000 +
                        (b3 - 0x80) * 0x40 + (b4 - 0x80)) :: cs)
        else none
      | _ => none
    else none

/-- The class attribute `Fat16Reader._attributes`: bit mask to flag name,
in the dictionary's insertion order. -/
def attributes_table : List (Nat × String) :=
  [(0x01, "read_only"), (0x02, "hidden"), (0x04, "system"),
   (0x08, "volume_id"), (0x10, "directory"), (0x20, "archive")]

/-- The attribute-decoding loop of `Fat16Reader._read_entry`: every table
entry whose bit is set in `b` contributes its name, in table order. -/
def attributes_of (b : Nat) : List String :=
  attributes_table.filterMap (fun p => if b &&& p.1 ≠ 0 then some p.2 else none)

/-- The keys of `Fat16Reader._fat_16_notable_values`. -/
def fat_16_notable_values : List Nat := [0x0000, 0x0001, 0xFFF7, 0xFFF8, 0xFFFF]

/-- `DirectoryEntry` (from `directory_entry.py`); fields in the
constructor's parameter order.  Names and extensions are lists of code
points (decoded, stripped strings). -/
structure DirectoryEntry where
  filename : List Nat
  extension : List Nat
  attributes : List String
  creation_time : Nat
  creation_date : Nat
  cluster_number : Nat
  filesize : Nat
  deriving DecidableEq, Repr

/-- `FileInfo` (from `file_info.py`). -/
structure FileInfo where
  filename : List Nat
  extension : List Nat
  filesize : Nat
  bytes : List Nat
  deriving DecidableEq, Repr

/-- `Fat16Reader._read_entry`: decode one 32-byte directory slot at
`byte_offset`.  Note that the source passes `creation_date` into the
`creation_time` parameter of `DirectoryEntry` and vice versa; the
constructor call below reproduces that argument order. -/
def read_entry (image : List Nat) (byte_offset : Int) : Except Err DirectoryEntry := do
  let name := py_slice image byte_offset (byte_offset + 8)
  let extension := py_slice image (byte_offset + 8) (byte_offset + 11)
  let entry_filename ← match utf8_decode name with
    | some cs => pure (py_strip cs)
    | none => Except.error Err.unicodeDecodeError
  let entry_extension ← match utf8_decode extension with
    | some cs => pure (py_strip cs)
    | none => Except.error Err.unicodeDecodeError
  let attributes_byte ← byte_at image (byte_offset + 11)
  let entry_attributes := attributes_of attributes_byte
  let creation_time ← read_ushort image (byte_offset + 14)
  let creation_date ← read_ushort image (byte_offset + 16)
  let cluster_number ← read_ushort image (byte_offset + 26)
  let filesize ← read_uint image (byte_offset + 28)
  return ⟨entry_filename, entry_extension, entry_attributes,
          creation_date, creation_time, cluster_number, filesize⟩

/-- Loop body of `Fat16Reader._read_directory`, recursing on a gas bound.
Each iteration reads the slot's first byte (raising `IndexError` past the
end of the image, stopping at a 0x00 byte), decodes the slot, and moves
32 bytes forward.  The gas only has to exceed the number of remaining
iterations; `read_directory` supplies enough for the loop as written, so
the `0` case is unreachable from it (`read_directory_eq` proves the
wrapper satisfies the loop's defining recurrence). -/
def read_directory_go (image : List Nat) : Nat → Int → Except Err (List DirectoryEntry)
  | 0, _ => .error .indexError
  | gas + 1, entry_offset =>
    match byte_at image entry_offset with
    | .error e => .error e
    | .ok b =>
      if b = 0 then .ok []
      else
        match read_entry image entry_offset with
        | .error e => .error e
        | .ok entry =>
          match read_directory_go image gas (entry_offset + 32) with
          | .error e => .error e
          | .ok rest => .ok (entry :: rest)

/-- `Fat16Reader._read_directory`: read consecutive 32-byte slots from
`offset` until the first slot whose first byte is 0x00. -/
def read_directory (image : List Nat) (offset : Int) : Except Err (List DirectoryEntry) :=
  read_directory_go image (((image.length : Int) - offset).toNat + 1) offset

/-- The navigator state: the `Fat16Reader` object's fields after
`__init__` (image bytes, boot-sector geometry, current directory). -/
structure Fat16Reader where
  do_print_on_commands : Bool
  image : List Nat
  reserved_sectors : Nat
  sector_size : Nat
  cluster_size : Nat
  fat_offset : Nat
  fat_size : Nat
  fat_copies : Nat
  root_directory_offset : Nat
  root_directory_entries : Nat
  root_directory_size : Nat
  clusters_offset : Nat
  current_root : Nat
  current_entries : List DirectoryEntry
  deriving DecidableEq, Repr

/-- `Fat16Reader.__init__` together with `_read_boot_sector`: parse the
boot sector fields in source order, derive the offsets, and read the
root directory.  (The file-system image is taken directly as bytes; the
`open`/`read` of the path is outside the embedding.) -/
def init_reader (image : List Nat) (do_print_on_commands : Bool) : Except Err Fat16Reader := do
  let reserved_sectors ← read_ushort image 14
  let sector_size ← read_ushort image 11
  let cluster_size ← byte_at image 13
  let fat_offset := reserved_sectors * sector_size
  let fat_size ← read_ushort image 22
  let fat_copies ← byte_at image 16
  let root_directory_offset := fat_offset + fat_size * fat_copies * sector_size
  let root_directory_entries ← read_ushort image 17
  let root_directory_size := root_directory_entries * 32
  let clusters_offset := root_directory_offset + root_directory_size
  let current_root := root_directory_offset
  let current_entries ← read_directory image (current_root : Int)
  return ⟨do_print_on_commands, image, reserved_sectors, sector_size, cluster_size,
          fat_offset, fat_size, fat_copies, root_directory_offset,
          root_directory_entries, root_directory_size, clusters_offset,
          current_root, current_entries⟩

/-- `Fat16Reader._check_next_in_fat`: read the 16-bit FAT entry of
`cluster_number`; report `(False, value)` when the value is one of the
notable sentinels and `(True, value)` otherwise. -/
def check_next_in_fat (r : Fat16Reader) (cluster_number : Nat) : Except Err (Bool × Nat) :=
  match read_ushort r.image ((r.fat_offset : Int) + (cluster_number : Int) * 2) with
  | .error e => .error e
  | .ok v => .ok (if v ∈ fat_16_notable_values then (false, v) else (true, v))

/-- The `while` loop of `Fat16Reader._get_clusters_list`, with fuel: while
the last FAT probe said there is a next cluster, append it and probe
again.  The source loop has no bound; `Err.outOfFuel` models running
past the given fuel (in particular, on a cyclic FAT it is returned for
every fuel). -/
def get_clusters_go (r : Fat16Reader) : Nat → List Nat → Bool × Nat → Except Err (List Nat)
  | fuel, clusters_list, t =>
    if t.1 = true then
      match fuel with
      | 0 => .error .outOfFuel
      | fuel' + 1 =>
        match check_next_in_fat r t.2 with
        | .error e => .error e
        | .ok t' => get_clusters_go r fuel' (clusters_list ++ [t.2]) t'
    else .ok clusters_list

/-- `Fat16Reader._get_clusters_list`: a zero start cluster short-circuits
to the empty list; otherwise walk the FAT from the entry's start
cluster. -/
def get_clusters_list (fuel : Nat) (r : Fat16Reader) (entry : DirectoryEntry) :
    Except Err (List Nat) :=
  if entry.cluster_number = 0 then .ok []
  else
    match check_next_in_fat r entry.cluster_number with
    | .error e => .error e
    | .ok t => get_clusters_go r fuel [entry.cluster_number] t

/-- The byte offset where a cluster's data starts
(`clusters_offset + cluster_size * sector_size * (cluster - 2)`, as
computed in `_cd_set_current_entries` and `_compose_file`). -/
def cluster_start (r : Fat16Reader) (cluster : Nat) : Int :=
  (r.clusters_offset : Int) + (r.cluster_size : Int) * (r.sector_size : Int) *
    ((cluster : Int) - 2)

/-- Loop of `Fat16Reader._cd_set_current_entries`: the source first
assigns `self._current_entries = []` and then extends it per cluster, so
on an error the state keeps the entries accumulated so far. -/
def cd_set_go (r : Fat16Reader) (acc : List DirectoryEntry) :
    List Nat → (Except Err Unit) × Fat16Reader
  | [] => (.ok (), { r with current_entries := acc })
  | cluster :: rest =>
    match read_directory r.image (cluster_start r cluster) with
    | .error e => (.error e, { r with current_entries := acc })
    | .ok es => cd_set_go r (acc ++ es) rest

/-- `Fat16Reader._cd_set_current_entries`. -/
def cd_set_current_entries (r : Fat16Reader) (linked_list : List Nat) :
    (Except Err Unit) × Fat16Reader :=
  cd_set_go r [] linked_list

/-- The `for` loop of `Fat16Reader.cd`: iterate over the snapshot of
`current_entries` taken at loop entry (reassigning the attribute does
not affect the iterator), processing **every** entry whose attributes
contain `"directory"` and whose name matches. -/
def cd_loop (fuel : Nat) (directory_name : List Nat) :
    Fat16Reader → Bool → List DirectoryEntry → (Except Err Bool) × Fat16Reader
  | r, found, [] => (.ok found, r)
  | r, found, entry :: rest =>
    if "directory" ∈ entry.attributes ∧ entry.filename = directory_name then
      match get_clusters_list fuel r entry with
      | .error e => (.error e, r)
      | .ok clusters_linked_list =>
        if clusters_linked_list.length > 0 then
          match cd_set_current_entries r clusters_linked_list with
          | (.error e, r') => (.error e, r')
          | (.ok _, r') => cd_loop fuel directory_name r' true rest
        else
          match read_directory r.image (r.root_directory_offset : Int) with
          | .error e => (.error e, r)
          | .ok es => cd_loop fuel directory_name { r with current_entries := es } true rest
    else cd_loop fuel directory_name r found rest

/-- `Fat16Reader.cd`: returns the Python return value (`none` models the
`return None` of print mode, `some entries` the final
`return self._current_entries`) together with the object state after the
call; a failure carries the state at the moment the exception
propagates. -/
def cd (fuel : Nat) (r : Fat16Reader) (directory_name : List Nat) :
    (Except Err (Option (List DirectoryEntry))) × Fat16Reader :=
  match cd_loop fuel directory_name r false r.current_entries with
  | (.error e, r') => (.error e, r')
  | (.ok found, r') =>
    if found = false ∧ r'.do_print_on_commands = true then (.ok none, r')
    else if found = false ∧ r'.do_print_on_commands = false then
      (.error .notADirectoryError, r')
    else (.ok (some r'.current_entries), r')

/-- `Fat16Reader.ls`: returns `current_entries`; the state is untouched. -/
def ls (r : Fat16Reader) : List DirectoryEntry × Fat16Reader :=
  (r.current_entries, r)

/-- Loop of `Fat16Reader._compose_file`: per cluster, take the whole
cluster while at least `cluster_bytes` bytes remain, else take the
remaining bytes (without decrementing the counter, as in the source). -/
def compose_go (r : Fat16Reader) (cluster_bytes : Nat) :
    Nat → List (List Nat) → List Nat → Nat × List (List Nat)
  | bytes, file_bytes, [] => (bytes, file_bytes)
  | bytes, file_bytes, cluster :: rest =>
    let cs := cluster_start r cluster
    if bytes ≥ cluster_bytes then
      compose_go r cluster_bytes (bytes - cluster_bytes)
        (file_bytes ++ [py_slice r.image cs (cs + (cluster_bytes : Int))]) rest
    else
      compose_go r cluster_bytes bytes
        (file_bytes ++ [py_slice r.image cs (cs + (bytes : Int))]) rest

/-- `Fat16Reader._compose_file`: collects the per-cluster slices and then
assigns `file.bytes = file_bytes[0]` — only the first collected slice;
an empty cluster list makes that indexing raise `IndexError`. -/
def compose_file (r : Fat16Reader) (clusters_list : List Nat) (entry : DirectoryEntry) :
    Except Err FileInfo :=
  let cluster_bytes := r.cluster_size * r.sector_size
  match (compose_go r cluster_bytes entry.filesize [] clusters_list).2 with
  | [] => .error .indexError
  | b :: _ => .ok ⟨entry.filename, entry.extension, entry.filesize, b⟩

/-- The `for` loop of `Fat16Reader.open_file`: any name match sets
`found`; only a match whose attributes contain `"archive"` or
`"read_only"` resolves the chain and (re)assigns the local `file`. -/
def open_file_loop (fuel : Nat) (r : Fat16Reader) (filename : List Nat) :
    Bool → Option FileInfo → List DirectoryEntry → Except Err (Bool × Option FileInfo)
  | found, file, [] => .ok (found, file)
  | found, file, entry :: rest =>
    if entry.filename = filename then
      if "archive" ∈ entry.attributes ∨ "read_only" ∈ entry.attributes then
        match get_clusters_list fuel r entry with
        | .error e => .error e
        | .ok clusters_list =>
          match compose_file r clusters_list entry with
          | .error e => .error e
          | .ok f => open_file_loop fuel r filename true (some f) rest
      else open_file_loop fuel r filename true file rest
    else open_file_loop fuel r filename found file rest

/-- `Fat16Reader.open_file`: `none` models print-mode `return None`; when
an entry matched by name but the local `file` was never assigned, the
final `return file` raises (modelled by `Err.nameError`).  The state is
returned unchanged: the method never writes to `self`. -/
def open_file (fuel : Nat) (r : Fat16Reader) (filename : List Nat) :
    (Except Err (Option FileInfo)) × Fat16Reader :=
  (match open_file_loop fuel r filename false none r.current_entries with
   | .error e => .error e
   | .ok (found, file) =>
     if found = false ∧ r.do_print_on_commands = true then .ok none
     else if found = false ∧ r.do_print_on_commands = false then .error .notAFileError
     else
       match file with
       | some f => .ok (some f)
       | none => .error .nameError
   , r)

/-! ## Derived definitions used to state properties -/

/-- `ChainSteps r c rest` says the FAT links cluster `c` to the successive
clusters of `rest` and the FAT entry of the last cluster holds an
end-of-file sentinel the source recognises (`0xFFF8` or `0xFFFF`); every
link value is an ordinary cluster number (not a notable sentinel). -/
def ChainSteps (r : Fat16Reader) : Nat → List Nat → Prop
  | c, [] => ∃ s, read_ushort r.image ((r.fat_offset : Int) + (c : Int) * 2) = .ok s ∧
      (s = 0xFFF8 ∨ s = 0xFFFF)
  | c, d :: rest => read_ushort r.image ((r.fat_offset : Int) + (c : Int) * 2) = .ok d ∧
      d ∉ fat_16_notable_values ∧ ChainSteps r d rest

/-- `SlotsSpec image offset entries` says: the consecutive 32-byte slots
from `offset` decode to exactly `entries`, and the next slot after them
is the first one whose first byte is 0x00.  A slot is included exactly
when its first byte is non-zero (a deleted-entry marker 0xE5 is not
special) and `read_entry` succeeds on it. -/
def SlotsSpec (image : List Nat) : Int → List DirectoryEntry → Prop
  | offset, [] => byte_at image offset = .ok 0
  | offset, e :: rest => (∃ b, byte_at image offset = .ok b ∧ b ≠ 0) ∧
      read_entry image offset = .ok e ∧ SlotsSpec image (offset + 32) rest

/-- Reading every cluster of a chain as a directory page and
concatenating, in chain order (the successful behaviour of
`_cd_set_current_entries`, expressed without state). -/
def clusters_dir_entries (r : Fat16Reader) : List Nat → Except Err (List DirectoryEntry)
  | [] => .ok []
  | c :: cs =>
    match read_directory r.image (cluster_start r c) with
    | .error e => .error e
    | .ok es =>
      match clusters_dir_entries r cs with
      | .error e => .error e
      | .ok rest => .ok (es ++ rest)

/-- The entries `cd` installs when it processes one matching directory
entry: read the clusters of its chain, or the fixed root-directory area
when the chain is empty.  Depends only on the image and the geometry,
not on `current_entries`. -/
def entries_for_match (fuel : Nat) (r : Fat16Reader) (entry : DirectoryEntry) :
    Except Err (List DirectoryEntry) :=
  match get_clusters_list fuel r entry with
  | .error e => .error e
  | .ok chain =>
    if chain.length > 0 then clusters_dir_entries r chain
    else read_directory r.image (r.root_directory_offset : Int)

/-- The match predicate of the `cd` loop, as a Boolean. -/
def is_dir_match (directory_name : List Nat) (e : DirectoryEntry) : Bool :=
  decide ("directory" ∈ e.attributes ∧ e.filename = directory_name)

/-! ## Concrete images

All images share one small geometry: 1 reserved sector, 32-byte sectors,
1 sector per cluster, one 1-sector FAT copy, 4 root entries.  So the FAT
area is bytes 32–63 (FAT entry of cluster `c` at byte `32 + 2*c`), the
root directory starts at byte 64, and the data area starts at byte 192
(cluster 2 at 192, cluster 3 at 224). -/

/-- Boot sector bytes for the shared test geometry. -/
def boot_sector : List Nat :=
  [0, 0, 0, 0, 0, 0, 0, 0, 0, 0, 0, 32, 0, 1, 1, 0, 1, 4, 0, 0, 0, 0, 1, 0,
   0, 0, 0, 0, 0, 0, 0, 0]

/-- The reader state produced by parsing any image with `boot_sector` at
its head: the geometry fields are fixed and only the image and the
decoded root entries vary. -/
def mk_reader (image : List Nat) (entries : List DirectoryEntry) : Fat16Reader :=
  { do_print_on_commands := false, image := image,
    reserved_sectors := 1, sector_size := 32, cluster_size := 1, fat_offset := 32,
    fat_size := 1, fat_copies := 1, root_directory_offset := 64,
    root_directory_entries := 4, root_directory_size := 128, clusters_offset := 192,
    current_root := 64, current_entries := entries }

/-- Image for C1: one root file entry `F` (archive), start cluster 2,
declared size 40, FAT chain 2 → 3 → end-of-file; cluster 2 holds 32
bytes of 65 and cluster 3 starts with 8 bytes of 66. -/
def img_two_cluster_file : List Nat :=
  boot_sector
  ++ [0, 0, 0, 0, 3, 0, 0xF8, 0xFF] ++ List.replicate 24 0
  ++ [70, 32, 32, 32, 32, 32, 32, 32, 32, 32, 32, 0x20,
      0, 0, 0, 0, 0, 0, 0, 0, 0, 0, 0, 0, 0, 0, 2, 0, 40, 0, 0, 0]
  ++ List.replicate 96 0
  ++ List.replicate 32 65 ++ List.replicate 8 66

/-- The decoded root entry of `img_two_cluster_file`. -/
def entry_F : DirectoryEntry := ⟨[70], [], ["archive"], 0, 0, 2, 40⟩

/-- The reader state after opening `img_two_cluster_file`. -/
def reader_two_cluster : Fat16Reader := mk_reader img_two_cluster_file [entry_F]

/-- Image for the C2 counterexample: identical, except the FAT entry of
cluster 2 holds the end-of-file sentinel 0xFFF9 — inside the range
`0xFFF8`–`0xFFFF` but not one of the two values the source recognises —
and there is no cluster data. -/
def img_fff9_sentinel : List Nat :=
  boot_sector
  ++ [0, 0, 0, 0, 0xF9, 0xFF, 0, 0] ++ List.replicate 24 0
  ++ [70, 32, 32, 32, 32, 32, 32, 32, 32, 32, 32, 0x20,
      0, 0, 0, 0, 0, 0, 0, 0, 0, 0, 0, 0, 0, 0, 2, 0, 4, 0, 0, 0]
  ++ List.replicate 32 0

/-- The decoded root entry of `img_fff9_sentinel`. -/
def entry_F9 : DirectoryEntry := ⟨[70], [], ["archive"], 0, 0, 2, 4⟩

/-- The reader state after opening `img_fff9_sentinel`. -/
def reader_fff9 : Fat16Reader := mk_reader img_fff9_sentinel [entry_F9]

/-- Image for C3: a cyclic FAT, `FAT[2] = 3` and `FAT[3] = 2`, with a
root directory entry `D` (directory attribute) starting at cluster 2. -/
def img_cyclic_fat : List Nat :=
  boot_sector
  ++ [0, 0, 0, 0, 3, 0, 2, 0] ++ List.replicate 24 0
  ++ [68, 32, 32, 32, 32, 32, 32, 32, 32, 32, 32, 0x10,
      0, 0, 0, 0, 0, 0, 0, 0, 0, 0, 0, 0, 0, 0, 2, 0, 0, 0, 0, 0]
  ++ List.replicate 32 0

/-- The decoded root entry of `img_cyclic_fat`. -/
def entry_D : DirectoryEntry := ⟨[68], [], ["directory"], 0, 0, 2, 0⟩

/-- The reader state after opening `img_cyclic_fat`. -/
def reader_cyclic : Fat16Reader := mk_reader img_cyclic_fat [entry_D]

/-- Image for the C4 witness: the root directory holds a single entry
named `..` with the directory attribute and start cluster 0. -/
def img_dotdot_root : List Nat :=
  boot_sector
  ++ List.replicate 32 0
  ++ [46, 46, 32, 32, 32, 32, 32, 32, 32, 32, 32, 0x10,
      0, 0, 0, 0, 0, 0, 0, 0, 0, 0, 0, 0, 0, 0, 0, 0, 0, 0, 0, 0]
  ++ List.replicate 32 0

/-- The decoded `..` entry of `img_dotdot_root`. -/
def entry_dotdot : DirectoryEntry := ⟨[46, 46], [], ["directory"], 0, 0, 0, 0⟩

/-- The reader state after opening `img_dotdot_root`. -/
def reader_dotdot : Fat16Reader := mk_reader img_dotdot_root [entry_dotdot]

/-- Image for C5: the root directory holds a single entry named `SUB`
whose only attribute is `directory` (so it matches `open_file("SUB")` by
name but is never treated as a file). -/
def img_sub_dir : List Nat :=
  boot_sector
  ++ List.replicate 32 0
  ++ [83, 85, 66, 32, 32, 32, 32, 32, 32, 32, 32, 0x10,
      0, 0, 0, 0, 0, 0, 0, 0, 0, 0, 0, 0, 0, 0, 2, 0, 0, 0, 0, 0]
  ++ List.replicate 32 0

/-- The decoded root entry of `img_sub_dir`. -/
def entry_SUB : DirectoryEntry := ⟨[83, 85, 66], [], ["directory"], 0, 0, 2, 0⟩

/-- Directory bytes for the C7 counterexample: a normal slot `A`
(archive), then a deleted slot — first name byte 0xE5 followed by the
ASCII bytes `BC` — then the 0x00 end-of-directory sentinel. -/
def img_deleted_entry : List Nat :=
  [65, 32, 32, 32, 32, 32, 32, 32, 32, 32, 32, 0x20,
   0, 0, 0, 0, 0, 0, 0, 0, 0, 0, 0, 0, 0, 0, 0, 0, 0, 0, 0, 0]
  ++ [0xE5, 66, 67, 32, 32, 32, 32, 32, 32, 32, 32, 0x20,
      0, 0, 0, 0, 0, 0, 0, 0, 0, 0, 0, 0, 0, 0, 0, 0, 0, 0, 0, 0]
  ++ [0]

/-- Image for the C9 counterexample: one root directory entry `A`
(directory attribute, start cluster 2, FAT says end-of-file), but the
image ends before the data area, so reading cluster 2 as a directory
page raises `IndexError` after `cd` has already reset
`current_entries`. -/
def img_truncated_cluster : List Nat :=
  boot_sector
  ++ [0, 0, 0, 0, 0xFF, 0xFF, 0, 0] ++ List.replicate 24 0
  ++ [65, 32, 32, 32, 32, 32, 32, 32, 32, 32, 32, 0x10,
      0, 0, 0, 0, 0, 0, 0, 0, 0, 0, 0, 0, 0, 0, 2, 0, 0, 0, 0, 0]
  ++ List.replicate 32 0

/-- The decoded root entry of `img_truncated_cluster`. -/
def entry_A_dir : DirectoryEntry := ⟨[65], [], ["directory"], 0, 0, 2, 0⟩

/-- The reader state after opening `img_truncated_cluster`. -/
def reader_truncated : Fat16Reader := mk_reader img_truncated_cluster [entry_A_dir]

/-- Image for C10: the root directory holds two entries, both named `A`
and both directories, with start clusters 2 and 3 (each chain is a
single cluster).  The directory page of cluster 2 shows slots `X` then
`Y` (the sentinel scan runs across the cluster boundary); the page of
cluster 3 shows only `Y`. -/
def img_duplicate_dirs : List Nat :=
  boot_sector
  ++ [0, 0, 0, 0, 0xFF, 0xFF, 0xFF, 0xFF] ++ List.replicate 24 0
  ++ [65, 32, 32, 32, 32, 32, 32, 32, 32, 32, 32, 0x10,
      0, 0, 0, 0, 0, 0, 0, 0, 0, 0, 0, 0, 0, 0, 2, 0, 0, 0, 0, 0]
  ++ [65, 32, 32, 32, 32, 32, 32, 32, 32, 32, 32, 0x10,
      0, 0, 0, 0, 0, 0, 0, 0, 0, 0, 0, 0, 0, 0, 3, 0, 0, 0, 0, 0]
  ++ List.replicate 64 0
  ++ [88, 32, 32, 32, 32, 32, 32, 32, 32, 32, 32, 0x10,
      0, 0, 0, 0, 0, 0, 0, 0, 0, 0, 0, 0, 0, 0, 0, 0, 0, 0, 0, 0]
  ++ [89, 32, 32, 32, 32, 32, 32, 32, 32, 32, 32, 0x10,
      0, 0, 0, 0, 0, 0, 0, 0, 0, 0, 0, 0, 0, 0, 0, 0, 0, 0, 0, 0]
  ++ [0]

/-- The two duplicate root entries of `img_duplicate_dirs`. -/
def entry_A2 : DirectoryEntry := ⟨[65], [], ["directory"], 0, 0, 2, 0⟩

/-- Second duplicate (start cluster 3). -/
def entry_A3 : DirectoryEntry := ⟨[65], [], ["directory"], 0, 0, 3, 0⟩

/-- The `X` entry visible from cluster 2 of `img_duplicate_dirs`. -/
def entry_X : DirectoryEntry := ⟨[88], [], ["directory"], 0, 0, 0, 0⟩

/-- The `Y` entry visible from both data clusters of `img_duplicate_dirs`. -/
def entry_Y : DirectoryEntry := ⟨[89], [], ["directory"], 0, 0, 0, 0⟩

/-- The reader state after opening `img_duplicate_dirs`. -/
def reader_duplicate : Fat16Reader := mk_reader img_duplicate_dirs [entry_A2, entry_A3]

/-- The reader produced from a 24-byte all-zero image: every geometry
field parses to zero and the root listing is empty (byte 0 of the image
is the end-of-directory sentinel). -/
def zero_reader : Fat16Reader :=
  { do_print_on_commands := false, image := List.replicate 24 0,
    reserved_sectors := 0, sector_size := 0, cluster_size := 0, fat_offset := 0,
    fat_size := 0, fat_copies := 0, root_directory_offset := 0,
    root_directory_entries := 0, root_directory_size := 0, clusters_offset := 0,
    current_root := 0, current_entries := [] }

/-! ## Consistency of the concrete readers with `init_reader` -/

theorem init_two_cluster : init_reader img_two_cluster_file false = .ok reader_two_cluster := rfl

theorem init_fff9 : init_reader img_fff9_sentinel false = .ok reader_fff9 := rfl

theorem init_cyclic : init_reader img_cyclic_fat false = .ok reader_cyclic := rfl

theorem init_dotdot : init_reader img_dotdot_root false = .ok reader_dotdot := rfl

theorem init_sub_dir : init_reader img_sub_dir false = .ok (mk_reader img_sub_dir [entry_SUB]) := rfl

theorem init_truncated : init_reader img_truncated_cluster false = .ok reader_truncated := rfl

theorem init_duplicate : init_reader img_duplicate_dirs false = .ok reader_duplicate := rfl

/-! ## Small step lemmas for the FAT chain walk -/

theorem get_clusters_go_false (r : Fat16Reader) (fuel : Nat) (acc : List Nat) (c : Nat) :
    get_clusters_go r fuel acc (false, c) = .ok acc := by
  cases fuel <;> rfl

theorem get_clusters_go_zero (r : Fat16Reader) (acc : List Nat) (c : Nat) :
    get_clusters_go r 0 acc (true, c) = .error .outOfFuel := rfl

theorem get_clusters_go_succ (r : Fat16Reader) (fuel : Nat) (acc : List Nat) (c : Nat) :
    get_clusters_go r (fuel + 1) acc (true, c) =
      match check_next_in_fat r c with
      | .error e => .error e
      | .ok t' => get_clusters_go r fuel (acc ++ [c]) t' := rfl

/-- C1: on a well-formed chain of two clusters with a declared size of 40
bytes (one whole 32-byte cluster plus 8 bytes of the final cluster),
`open_file` succeeds but returns only the first cluster's 32 bytes
(`_compose_file` assigns `file.bytes = file_bytes[0]`), so the content
is neither the full concatenation nor a `TruncatedFile` failure — the
code contradicts the claim, which the specification itself marks as the
corrected behaviour. -/
theorem c1_compose_first_cluster_only :
    (init_reader img_two_cluster_file false).bind (fun r => (open_file 10 r [70]).1) =
      .ok (some ⟨[70], [], 40, List.replicate 32 65⟩) ∧
    get_clusters_list 10 reader_two_cluster entry_F = .ok [2, 3] ∧
    entry_F.filesize = 40 ∧
    (List.replicate 32 65).length = 32 :=
  ⟨rfl, rfl, rfl, by simp⟩

/-- C2 counterexample: on `img_fff9_sentinel` the FAT entry of cluster 2
holds `0xFFF9`, an end-of-file sentinel inside the claimed range
`0xFFF8`–`0xFFFF`, heading a chain of `k = 1` cluster; the claim demands
the resolver return exactly `[2]`, but the source recognises only
`0xFFF8` and `0xFFFF`, treats `0xFFF9` as a next cluster number, and the
walk fails with a `struct.error` probing the FAT entry of 0xFFF9. -/
theorem c2_sentinel_range_counterexample :
    read_ushort reader_fff9.image ((reader_fff9.fat_offset : Int) + 2 * 2) = .ok 0xFFF9 ∧
    entry_F9.cluster_number = 2 ∧
    get_clusters_list 10 reader_fff9 entry_F9 = .error .structError ∧
    Except.error Err.structError ≠ (Except.ok [2] : Except Err (List Nat)) :=
  ⟨rfl, rfl, rfl, by simp⟩

/-! ## C2: resolving a well-formed chain -/

theorem check_next_eval (r : Fat16Reader) (c v : Nat)
    (h : read_ushort r.image ((r.fat_offset : Int) + (c : Int) * 2) = .ok v) :
    check_next_in_fat r c =
      .ok (if v ∈ fat_16_notable_values then (false, v) else (true, v)) := by
  unfold check_next_in_fat
  rw [h]

theorem chain_steps_check (r : Fat16Reader) (c : Nat) (rest : List Nat)
    (h : ChainSteps r c rest) : ∃ t, check_next_in_fat r c = .ok t := by
  cases rest with
  | nil =>
    obtain ⟨s, hs, hv⟩ := h
    have hnot : s ∈ fat_16_notable_values := by
      rcases hv with h | h <;> subst h <;> decide
    exact ⟨(false, s), by rw [check_next_eval r c s hs, if_pos hnot]⟩
  | cons d rest' =>
    obtain ⟨hd, hdnot, _⟩ := h
    exact ⟨(true, d), by rw [check_next_eval r c d hd, if_neg hdnot]⟩

theorem get_clusters_go_chain (r : Fat16Reader) :
    ∀ (rest : List Nat) (c fuel : Nat) (acc : List Nat) (t : Bool × Nat),
      ChainSteps r c rest → rest.length ≤ fuel →
      check_next_in_fat r c = .ok t →
      get_clusters_go r fuel acc t = .ok (acc ++ rest) := by
  intro rest
  induction rest with
  | nil =>
    intro c fuel acc t h _ ht
    obtain ⟨s, hs, hv⟩ := h
    have hnot : s ∈ fat_16_notable_values := by
      rcases hv with h | h <;> subst h <;> decide
    rw [check_next_eval r c s hs, if_pos hnot] at ht
    cases ht
    simpa using get_clusters_go_false r fuel acc s
  | cons d rest' ih =>
    intro c fuel acc t h hf ht
    obtain ⟨hd, hdnot, h'⟩ := h
    rw [check_next_eval r c d hd, if_neg hdnot] at ht
    cases ht
    cases fuel with
    | zero => simp at hf
    | succ f =>
      obtain ⟨t', ht'⟩ := chain_steps_check r d rest' h'
      rw [get_clusters_go_succ, ht']
      have hrec := ih d f (acc ++ [d]) t' h' (by simpa using hf) ht'
      simpa using hrec

/-- C2 (amended): for every starting cluster `c ≠ 0` heading a FAT chain
of `k` clusters whose final FAT entry holds 0xFFF8 or 0xFFFF — the only
two end-of-file sentinels the source recognises; 0xFFF9–0xFFFE are
followed as ordinary cluster links — the resolver returns exactly those
`k` cluster numbers in FAT-link order, starting with `c` and excluding
the sentinel (given fuel at least the chain length). -/
theorem c2_chain_resolution (r : Fat16Reader) (entry : DirectoryEntry)
    (rest : List Nat) (fuel : Nat)
    (h0 : entry.cluster_number ≠ 0)
    (hch : ChainSteps r entry.cluster_number rest)
    (hfuel : rest.length ≤ fuel) :
    get_clusters_list fuel r entry = .ok (entry.cluster_number :: rest) := by
  obtain ⟨t, ht⟩ := chain_steps_check r entry.cluster_number rest hch
  unfold get_clusters_list
  rw [if_neg h0, ht]
  simpa using get_clusters_go_chain r rest entry.cluster_number fuel
    [entry.cluster_number] t hch hfuel ht

theorem c2_chain_resolution_witness :
    get_clusters_list 5 reader_two_cluster entry_F = .ok [2, 3] :=
  c2_chain_resolution reader_two_cluster entry_F [3] 5 (by decide)
    ⟨rfl, by decide, ⟨0xFFF8, rfl, Or.inl rfl⟩⟩ (by decide)

/-- C3: the claim (an explicit correction in the specification) demands a
bounded walk failing with `ChainTooLong`; the source has no bound at
all.  On the cyclic FAT `FAT[2] = 3`, `FAT[3] = 2`, the loop of
`_get_clusters_list` runs forever: for every fuel the embedded walk
reports fuel exhaustion rather than terminating with a result. -/
theorem c3_cyclic_fat_diverges :
    ∀ fuel : Nat, get_clusters_list fuel reader_cyclic entry_D = .error .outOfFuel := by
  have key : ∀ fuel : Nat, ∀ acc : List Nat,
      get_clusters_go reader_cyclic fuel acc (true, 3) = .error .outOfFuel ∧
      get_clusters_go reader_cyclic fuel acc (true, 2) = .error .outOfFuel := by
    intro fuel
    induction fuel with
    | zero => intro acc; exact ⟨rfl, rfl⟩
    | succ f ih =>
      intro acc
      constructor
      · have h : get_clusters_go reader_cyclic (f + 1) acc (true, 3) =
            get_clusters_go reader_cyclic f (acc ++ [3]) (true, 2) := rfl
        rw [h]
        exact (ih (acc ++ [3])).2
      · have h : get_clusters_go reader_cyclic (f + 1) acc (true, 2) =
            get_clusters_go reader_cyclic f (acc ++ [2]) (true, 3) := rfl
        rw [h]
        exact (ih (acc ++ [2])).1
  intro fuel
  have h : get_clusters_list fuel reader_cyclic entry_D =
      get_clusters_go reader_cyclic fuel [2] (true, 3) := rfl
  rw [h]
  exact (key fuel [2]).1

/-- C5: the claim says `open_file` fails with `NotAFile` whenever no
name-and-attribute match exists.  But any name match sets `found`, so on
a listing whose only entry `SUB` matches by name while carrying only the
`directory` attribute, the final `return file` refers to the never
assigned local `file` and raises `UnboundLocalError` instead of
`NotAFileException` — a slip in the code. -/
theorem c5_open_file_unbound_local :
    (init_reader img_sub_dir false).bind (fun r => (open_file 5 r [83, 85, 66]).1) =
      .error .nameError ∧
    init_reader img_sub_dir false = .ok (mk_reader img_sub_dir [entry_SUB]) ∧
    entry_SUB.filename = [83, 85, 66] ∧
    entry_SUB.attributes = ["directory"] :=
  ⟨rfl, rfl, rfl, rfl⟩

/-- C7 counterexample: a directory whose second slot is a deleted entry
(first name byte 0xE5) followed by ASCII name bytes.  The claim says
such a slot is decoded and included like any other entry; the source
instead dies in `name.decode("utf-8")`, because 0xE5 starts a three-byte
UTF-8 sequence and the following ASCII byte is not a continuation byte,
so the whole directory read fails with `UnicodeDecodeError`. -/
theorem c7_deleted_entry_counterexample :
    read_directory img_deleted_entry 0 = .error .unicodeDecodeError ∧
    byte_at img_deleted_entry 32 = .ok 0xE5 ∧
    utf8_decode (py_slice img_deleted_entry 32 40) = none :=
  ⟨rfl, rfl, rfl⟩

/-! ## C4: start cluster 0 routes to the root directory -/

theorem get_clusters_list_zero (fuel : Nat) (r : Fat16Reader) (entry : DirectoryEntry)
    (h : entry.cluster_number = 0) : get_clusters_list fuel r entry = .ok [] := by
  unfold get_clusters_list
  rw [if_pos h]

theorem cd_loop_zero_matches (fuel : Nat) (name : List Nat) (es : List DirectoryEntry) :
    ∀ (l : List DirectoryEntry) (r : Fat16Reader) (found : Bool),
      (∀ e ∈ l, "directory" ∈ e.attributes → e.filename = name → e.cluster_number = 0) →
      read_directory r.image (r.root_directory_offset : Int) = .ok es →
      cd_loop fuel name r found l =
        if ∃ e ∈ l, "directory" ∈ e.attributes ∧ e.filename = name then
          (.ok true, { r with current_entries := es })
        else (.ok found, r) := by
  intro l
  induction l with
  | nil => intro r found _ _; simp [cd_loop]
  | cons e rest ih =>
    intro r found hall hroot
    by_cases hm : "directory" ∈ e.attributes ∧ e.filename = name
    · have hc : e.cluster_number = 0 := hall e (by simp) hm.1 hm.2
      have hstep : cd_loop fuel name r found (e :: rest) =
          cd_loop fuel name { r with current_entries := es } true rest := by
        simp only [cd_loop]
        rw [if_pos hm, get_clusters_list_zero fuel r e hc]
        simp only [List.length_nil, gt_iff_lt, Nat.lt_irrefl, if_false]
        rw [hroot]
      rw [hstep, ih { r with current_entries := es } true
        (fun e' he' => hall e' (List.mem_cons_of_mem e he'))
        (by simpa using hroot)]
      have hex : ∃ e' ∈ e :: rest, "directory" ∈ e'.attributes ∧ e'.filename = name :=
        ⟨e, by simp, hm⟩
      rw [if_pos hex]
      by_cases hrest : ∃ e' ∈ rest, "directory" ∈ e'.attributes ∧ e'.filename = name
      · rw [if_pos hrest]
      · rw [if_neg hrest]
    · have hstep : cd_loop fuel name r found (e :: rest) = cd_loop fuel name r found rest := by
        simp only [cd_loop]
        rw [if_neg hm]
      rw [hstep, ih r found (fun e' he' => hall e' (List.mem_cons_of_mem e he')) hroot]
      by_cases hrest : ∃ e' ∈ rest, "directory" ∈ e'.attributes ∧ e'.filename = name
      · rw [if_pos hrest, if_pos ⟨hrest.choose, List.mem_cons_of_mem e hrest.choose_spec.1,
          hrest.choose_spec.2⟩]
      · rw [if_neg hrest, if_neg ?_]
        rintro ⟨e', he', hm'⟩
        rcases List.mem_cons.mp he' with h | h
        · exact hm (h ▸ hm')
        · exact hrest ⟨e', h, hm'⟩

/-- C4: a directory entry with start cluster 0 short-circuits chain
resolution to the empty chain, and a `cd` whose matching entries all
have start cluster 0 reloads `current_entries` from the fixed
root-directory offset (no cluster chain read happens: the walk returns
`[]` before touching the FAT). -/
theorem c4_zero_cluster_root :
    (∀ (fuel : Nat) (r : Fat16Reader) (entry : DirectoryEntry),
        entry.cluster_number = 0 → get_clusters_list fuel r entry = .ok []) ∧
    (∀ (fuel : Nat) (r : Fat16Reader) (name : List Nat) (es : List DirectoryEntry),
        (∃ e ∈ r.current_entries, "directory" ∈ e.attributes ∧ e.filename = name) →
        (∀ e ∈ r.current_entries, "directory" ∈ e.attributes → e.filename = name →
          e.cluster_number = 0) →
        read_directory r.image (r.root_directory_offset : Int) = .ok es →
        cd fuel r name = (.ok (some es), { r with current_entries := es })) := by
  constructor
  · exact fun fuel r entry h => get_clusters_list_zero fuel r entry h
  · intro fuel r name es hex hall hroot
    unfold cd
    rw [cd_loop_zero_matches fuel name es r.current_entries r false hall hroot, if_pos hex]
    simp

theorem c4_zero_cluster_root_witness :
    get_clusters_list 5 reader_dotdot entry_dotdot = .ok [] ∧
    cd 5 reader_dotdot [46, 46] =
      (.ok (some [entry_dotdot]), { reader_dotdot with current_entries := [entry_dotdot] }) :=
  ⟨c4_zero_cluster_root.1 5 reader_dotdot entry_dotdot rfl,
   c4_zero_cluster_root.2 5 reader_dotdot [46, 46] [entry_dotdot]
     ⟨entry_dotdot, by decide, by decide⟩ (by decide) rfl⟩

/-! ## C7: directory reading -/

theorem byte_at_ok_lt (l : List Nat) (i : Int) (b : Nat) (h : byte_at l i = .ok b) :
    i < (l.length : Int) := by
  unfold byte_at at h
  dsimp only at h
  by_cases hi : i < 0
  · have hnn : (0 : Int) ≤ (l.length : Int) := by positivity
    omega
  · by_cases hc : 0 ≤ (if i < 0 then (l.length : Int) + i else i) ∧
        (if i < 0 then (l.length : Int) + i else i) < (l.length : Int)
    · rw [if_neg hi] at hc
      omega
    · rw [dif_neg hc] at h
      exact absurd h (by simp)

theorem read_directory_go_congr (image : List Nat) :
    ∀ (g₁ g₂ : Nat) (offset : Int),
      ((image.length : Int) - offset).toNat < g₁ →
      ((image.length : Int) - offset).toNat < g₂ →
      read_directory_go image g₁ offset = read_directory_go image g₂ offset := by
  intro g₁
  induction g₁ with
  | zero => intro g₂ offset h₁ _; omega
  | succ a ih =>
    intro g₂ offset h₁ h₂
    cases g₂ with
    | zero => omega
    | succ b =>
      show read_directory_go image (a + 1) offset = read_directory_go image (b + 1) offset
      simp only [read_directory_go]
      cases hb : byte_at image offset with
      | error e => rfl
      | ok v =>
        dsimp only
        by_cases h0 : v = 0
        · simp [h0]
        · rw [if_neg h0, if_neg h0]
          cases he : read_entry image offset with
          | error e => rfl
          | ok entry =>
            dsimp only
            have hlt := byte_at_ok_lt image offset v hb
            rw [ih b (offset + 32) (by omega) (by omega)]

theorem read_directory_eq (image : List Nat) (offset : Int) :
    read_directory image offset =
      match byte_at image offset with
      | .error e => .error e
      | .ok b =>
        if b = 0 then .ok []
        else
          match read_entry image offset with
          | .error e => .error e
          | .ok entry =>
            match read_directory image (offset + 32) with
            | .error e => .error e
            | .ok rest => .ok (entry :: rest) := by
  have hstep : read_directory image offset =
      (match byte_at image offset with
       | .error e => .error e
       | .ok b =>
         if b = 0 then .ok []
         else
           match read_entry image offset with
           | .error e => .error e
           | .ok entry =>
             match read_directory_go image (((image.length : Int) - offset).toNat)
                 (offset + 32) with
             | .error e => .error e
             | .ok rest => .ok (entry :: rest)) := rfl
  rw [hstep]
  cases hb : byte_at image offset with
  | error e => rfl
  | ok v =>
    dsimp only
    by_cases h0 : v = 0
    · simp [h0]
    · rw [if_neg h0, if_neg h0]
      cases he : read_entry image offset with
      | error e => rfl
      | ok entry =>
        dsimp only
        have hlt := byte_at_ok_lt image offset v hb
        have hcongr : read_directory_go image (((image.length : Int) - offset).toNat)
            (offset + 32) = read_directory image (offset + 32) := by
          unfold read_directory
          exact read_directory_go_congr image _ _ (offset + 32) (by omega) (by omega)
        rw [hcongr]

/-- C7 (amended): reading a directory returns the list `entries` exactly
when the consecutive 32-byte slots from `offset` decode to `entries` and
stop at the first slot whose first byte is 0x00 — that slot and beyond
are excluded, and inclusion of a slot depends only on its first byte
being non-zero (a deleted-entry marker 0xE5 gets no special handling)
together with `read_entry` succeeding on it.  A 0xE5 slot whose name
field is invalid UTF-8 (0xE5 followed by an ASCII byte) makes the whole
read fail instead of being included. -/
theorem c7_directory_slots :
    ∀ (image : List Nat) (offset : Int) (entries : List DirectoryEntry),
      read_directory image offset = .ok entries ↔ SlotsSpec image offset entries := by
  intro image offset entries
  induction entries generalizing offset with
  | nil =>
    rw [read_directory_eq]
    constructor
    · intro h
      cases hb : byte_at image offset with
      | error e => rw [hb] at h; exact absurd h (by simp)
      | ok v =>
        rw [hb] at h
        dsimp only at h
        by_cases h0 : v = 0
        · show byte_at image offset = .ok 0
          rw [hb, h0]
        · rw [if_neg h0] at h
          cases he : read_entry image offset with
          | error e => rw [he] at h; exact absurd h (by simp)
          | ok entry =>
            rw [he] at h
            cases hr : read_directory image (offset + 32) with
            | error e => rw [hr] at h; exact absurd h (by simp)
            | ok rest => rw [hr] at h; exact absurd h (by simp)
    · intro h
      have hb : byte_at image offset = .ok 0 := h
      rw [hb]
      dsimp only
      simp
  | cons e tl ih =>
    rw [read_directory_eq]
    constructor
    · intro h
      cases hb : byte_at image offset with
      | error er => rw [hb] at h; exact absurd h (by simp)
      | ok v =>
        rw [hb] at h
        dsimp only at h
        by_cases h0 : v = 0
        · rw [if_pos h0] at h; exact absurd h (by simp)
        · rw [if_neg h0] at h
          cases he : read_entry image offset with
          | error er => rw [he] at h; exact absurd h (by simp)
          | ok entry =>
            rw [he] at h
            dsimp only at h
            cases hr : read_directory image (offset + 32) with
            | error er => rw [hr] at h; exact absurd h (by simp)
            | ok rest =>
              rw [hr] at h
              dsimp only at h
              have hinj : entry = e ∧ rest = tl := by
                have := Except.ok.inj h
                exact ⟨(List.cons.inj this).1, (List.cons.inj this).2⟩
              refine ⟨⟨v, hb, h0⟩, ?_, ?_⟩
              · rw [he, hinj.1]
              · exact (ih (offset + 32)).mp (hinj.2 ▸ hr)
    · rintro ⟨⟨b, hb, hb0⟩, he, hs⟩
      rw [hb]
      dsimp only
      rw [if_neg hb0, he]
      dsimp only
      rw [(ih (offset + 32)).mpr hs]

/-! ## C8: the attribute set is a pure function of the attribute byte -/

/-- C8: the attribute list of a decoded entry is exactly
`attributes_of` applied to the byte at offset 11 of the slot, and for
all 64 bitmask values over the six defined bits, `attributes_of`
contains exactly the named flags whose bits are set (in table order:
0x01 read_only, 0x02 hidden, 0x04 system, 0x08 volume_id,
0x10 directory, 0x20 archive). -/
theorem c8_attributes_pure :
    (∀ (image : List Nat) (offset : Int) (e : DirectoryEntry) (b : Nat),
        read_entry image offset = .ok e → byte_at image (offset + 11) = .ok b →
        e.attributes = attributes_of b) ∧
    (∀ b : Fin 64, attributes_of b.val =
      (if b.val &&& 0x01 ≠ 0 then ["read_only"] else []) ++
      (if b.val &&& 0x02 ≠ 0 then ["hidden"] else []) ++
      (if b.val &&& 0x04 ≠ 0 then ["system"] else []) ++
      (if b.val &&& 0x08 ≠ 0 then ["volume_id"] else []) ++
      (if b.val &&& 0x10 ≠ 0 then ["directory"] else []) ++
      (if b.val &&& 0x20 ≠ 0 then ["archive"] else [])) := by
  constructor
  · intro image offset e b h hb
    unfold read_entry at h
    simp only [bind, Except.bind] at h
    cases hn : utf8_decode (py_slice image offset (offset + 8)) with
    | none => rw [hn] at h; exact absurd h (by simp)
    | some ncs =>
      rw [hn] at h
      dsimp only [pure, Except.pure] at h
      cases hx : utf8_decode (py_slice image (offset + 8) (offset + 11)) with
      | none => rw [hx] at h; exact absurd h (by simp)
      | some xcs =>
        rw [hx] at h
        dsimp only [pure, Except.pure] at h
        rw [hb] at h
        dsimp only at h
        cases hct : read_ushort image (offset + 14) with
        | error er => rw [hct] at h; exact absurd h (by simp)
        | ok ct =>
          rw [hct] at h
          dsimp only at h
          cases hcd : read_ushort image (offset + 16) with
          | error er => rw [hcd] at h; exact absurd h (by simp)
          | ok cdv =>
            rw [hcd] at h
            dsimp only at h
            cases hcn : read_ushort image (offset + 26) with
            | error er => rw [hcn] at h; exact absurd h (by simp)
            | ok cn =>
              rw [hcn] at h
              dsimp only at h
              cases hfs : read_uint image (offset + 28) with
              | error er => rw [hfs] at h; exact absurd h (by simp)
              | ok fs =>
                rw [hfs] at h
                dsimp only at h
                have := Except.ok.inj h
                rw [← this]
  · decide

theorem c8_attributes_pure_witness :
    entry_F.attributes = attributes_of 0x20 :=
  c8_attributes_pure.1 img_two_cluster_file 64 entry_F 0x20 rfl rfl

/-! ## C9: frame conditions of the navigator operations -/

theorem bind_ne_nad {α β : Type} {x : Except Err α} {f : α → Except Err β}
    (hx : x ≠ .error .notADirectoryError)
    (hf : ∀ a, x = .ok a → f a ≠ .error .notADirectoryError) :
    x.bind f ≠ .error .notADirectoryError := by
  cases x with
  | error e => simpa [Except.bind] using hx
  | ok a => simpa [Except.bind] using hf a rfl

theorem read_ushort_ne_nad (image : List Nat) (offset : Int) :
    read_ushort image offset ≠ .error .notADirectoryError := by
  unfold read_ushort
  split <;> simp

theorem read_uint_ne_nad (image : List Nat) (offset : Int) :
    read_uint image offset ≠ .error .notADirectoryError := by
  unfold read_uint
  split <;> simp

theorem byte_at_ne_nad (l : List Nat) (i : Int) :
    byte_at l i ≠ .error .notADirectoryError := by
  unfold byte_at
  dsimp only
  split <;> split <;> simp

theorem read_entry_ne_nad (image : List Nat) (offset : Int) :
    read_entry image offset ≠ .error .notADirectoryError := by
  unfold read_entry
  simp only [bind, Except.bind]
  cases hn : utf8_decode (py_slice image offset (offset + 8)) with
  | none => simp
  | some ncs =>
    dsimp only [pure, Except.pure]
    cases hx : utf8_decode (py_slice image (offset + 8) (offset + 11)) with
    | none => simp
    | some xcs =>
      dsimp only [pure, Except.pure]
      cases hb : byte_at image (offset + 11) with
      | error e =>
        dsimp only
        have hne := byte_at_ne_nad image (offset + 11)
        rw [hb] at hne
        simp only [ne_eq, Except.error.injEq] at hne ⊢
        exact hne
      | ok b =>
        dsimp only
        cases hct : read_ushort image (offset + 14) with
        | error e =>
          dsimp only
          have hne := read_ushort_ne_nad image (offset + 14)
          rw [hct] at hne
          simp only [ne_eq, Except.error.injEq] at hne ⊢
          exact hne
        | ok ct =>
          dsimp only
          cases hcd : read_ushort image (offset + 16) with
          | error e =>
            dsimp only
            have hne := read_ushort_ne_nad image (offset + 16)
            rw [hcd] at hne
            simp only [ne_eq, Except.error.injEq] at hne ⊢
            exact hne
          | ok cdv =>
            dsimp only
            cases hcn : read_ushort image (offset + 26) with
            | error e =>
              dsimp only
              have hne := read_ushort_ne_nad image (offset + 26)
              rw [hcn] at hne
              simp only [ne_eq, Except.error.injEq] at hne ⊢
              exact hne
            | ok cn =>
              dsimp only
              cases hfs : read_uint image (offset + 28) with
              | error e =>
                dsimp only
                have hne := read_uint_ne_nad image (offset + 28)
                rw [hfs] at hne
                simp only [ne_eq, Except.error.injEq] at hne ⊢
                exact hne
              | ok fs => simp [pure, Except.pure]

theorem read_directory_go_ne_nad (image : List Nat) :
    ∀ (gas : Nat) (offset : Int),
      read_directory_go image gas offset ≠ .error .notADirectoryError := by
  intro gas
  induction gas with
  | zero => intro offset; simp [read_directory_go]
  | succ g ih =>
    intro offset
    simp only [read_directory_go]
    cases hb : byte_at image offset with
    | error e =>
      have := byte_at_ne_nad image offset
      rw [hb] at this
      simpa using this
    | ok b =>
      dsimp only
      by_cases h0 : b = 0
      · simp [h0]
      · rw [if_neg h0]
        cases he : read_entry image offset with
        | error e =>
          have := read_entry_ne_nad image offset
          rw [he] at this
          simpa using this
        | ok entry =>
          dsimp only
          cases hr : read_directory_go image g (offset + 32) with
          | error e =>
            have := ih (offset + 32)
            rw [hr] at this
            simpa using this
          | ok rest => simp

theorem read_directory_ne_nad (image : List Nat) (offset : Int) :
    read_directory image offset ≠ .error .notADirectoryError :=
  read_directory_go_ne_nad image _ offset

theorem check_next_ne_nad (r : Fat16Reader) (c : Nat) :
    check_next_in_fat r c ≠ .error .notADirectoryError := by
  unfold check_next_in_fat
  cases hu : read_ushort r.image ((r.fat_offset : Int) + (c : Int) * 2) with
  | error e =>
    have := read_ushort_ne_nad r.image ((r.fat_offset : Int) + (c : Int) * 2)
    rw [hu] at this
    simpa using this
  | ok v => simp

theorem get_clusters_go_ne_nad (r : Fat16Reader) :
    ∀ (fuel : Nat) (acc : List Nat) (t : Bool × Nat),
      get_clusters_go r fuel acc t ≠ .error .notADirectoryError := by
  intro fuel
  induction fuel with
  | zero =>
    intro acc t
    rcases t with ⟨b, c⟩
    cases b
    · rw [get_clusters_go_false]; simp
    · rw [get_clusters_go_zero]; simp
  | succ f ih =>
    intro acc t
    rcases t with ⟨b, c⟩
    cases b
    · rw [get_clusters_go_false]; simp
    · rw [get_clusters_go_succ]
      cases hc : check_next_in_fat r c with
      | error e =>
        have := check_next_ne_nad r c
        rw [hc] at this
        simpa using this
      | ok t' => exact ih (acc ++ [c]) t'

theorem get_clusters_list_ne_nad (fuel : Nat) (r : Fat16Reader) (entry : DirectoryEntry) :
    get_clusters_list fuel r entry ≠ .error .notADirectoryError := by
  unfold get_clusters_list
  split
  · simp
  · cases hc : check_next_in_fat r entry.cluster_number with
    | error e =>
      have := check_next_ne_nad r entry.cluster_number
      rw [hc] at this
      simpa using this
    | ok t => exact get_clusters_go_ne_nad r fuel [entry.cluster_number] t

theorem cd_set_go_ne_nad (r : Fat16Reader) :
    ∀ (chain : List Nat) (acc : List DirectoryEntry),
      (cd_set_go r acc chain).1 ≠ .error .notADirectoryError := by
  intro chain
  induction chain with
  | nil => intro acc; simp [cd_set_go]
  | cons c cs ih =>
    intro acc
    simp only [cd_set_go]
    cases hd : read_directory r.image (cluster_start r c) with
    | error e =>
      have := read_directory_ne_nad r.image (cluster_start r c)
      rw [hd] at this
      simpa using this
    | ok es => exact ih (acc ++ es)

theorem cd_loop_ne_nad (fuel : Nat) (name : List Nat) :
    ∀ (l : List DirectoryEntry) (r : Fat16Reader) (found : Bool),
      (cd_loop fuel name r found l).1 ≠ .error .notADirectoryError := by
  intro l
  induction l with
  | nil => intro r found; simp [cd_loop]
  | cons e rest ih =>
    intro r found
    simp only [cd_loop]
    by_cases hm : "directory" ∈ e.attributes ∧ e.filename = name
    · rw [if_pos hm]
      cases hg : get_clusters_list fuel r e with
      | error er =>
        have := get_clusters_list_ne_nad fuel r e
        rw [hg] at this
        simpa using this
      | ok chain =>
        dsimp only
        by_cases hlen : chain.length > 0
        · rw [if_pos hlen]
          rcases hset : cd_set_current_entries r chain with ⟨res, r₁⟩
          cases res with
          | error er =>
            have := cd_set_go_ne_nad r chain []
            unfold cd_set_current_entries at hset
            rw [hset] at this
            simpa using this
          | ok u => exact ih r₁ true
        · rw [if_neg hlen]
          cases hd : read_directory r.image (r.root_directory_offset : Int) with
          | error er =>
            have := read_directory_ne_nad r.image (r.root_directory_offset : Int)
            rw [hd] at this
            simpa using this
          | ok es => exact ih { r with current_entries := es } true
    · rw [if_neg hm]
      exact ih r found

theorem cd_loop_true_not_false (fuel : Nat) (name : List Nat) :
    ∀ (l : List DirectoryEntry) (r r' : Fat16Reader),
      cd_loop fuel name r true l ≠ (.ok false, r') := by
  intro l
  induction l with
  | nil => intro r r'; simp [cd_loop]
  | cons e rest ih =>
    intro r r'
    simp only [cd_loop]
    by_cases hm : "directory" ∈ e.attributes ∧ e.filename = name
    · rw [if_pos hm]
      cases hg : get_clusters_list fuel r e with
      | error er => simp
      | ok chain =>
        dsimp only
        by_cases hlen : chain.length > 0
        · rw [if_pos hlen]
          rcases hset : cd_set_current_entries r chain with ⟨res, r₁⟩
          cases res with
          | error er => simp
          | ok u => exact ih r₁ r'
        · rw [if_neg hlen]
          cases hd : read_directory r.image (r.root_directory_offset : Int) with
          | error er => simp
          | ok es => exact ih { r with current_entries := es } r'
    · rw [if_neg hm]
      exact ih r r'

theorem cd_loop_ok_false_unchanged (fuel : Nat) (name : List Nat) :
    ∀ (l : List DirectoryEntry) (r : Fat16Reader) (found : Bool) (r' : Fat16Reader),
      cd_loop fuel name r found l = (.ok false, r') → r' = r := by
  intro l
  induction l with
  | nil =>
    intro r found r' h
    simp only [cd_loop, Prod.mk.injEq] at h
    exact h.2.symm
  | cons e rest ih =>
    intro r found r' h
    simp only [cd_loop] at h
    by_cases hm : "directory" ∈ e.attributes ∧ e.filename = name
    · rw [if_pos hm] at h
      cases hg : get_clusters_list fuel r e with
      | error er => rw [hg] at h; exact absurd h (by simp)
      | ok chain =>
        rw [hg] at h
        dsimp only at h
        by_cases hlen : chain.length > 0
        · rw [if_pos hlen] at h
          rcases hset : cd_set_current_entries r chain with ⟨res, r₁⟩
          rw [hset] at h
          cases res with
          | error er => exact absurd h (by simp)
          | ok u => exact absurd h (cd_loop_true_not_false fuel name rest r₁ r')
        · rw [if_neg hlen] at h
          cases hd : read_directory r.image (r.root_directory_offset : Int) with
          | error er => rw [hd] at h; exact absurd h (by simp)
          | ok es =>
            rw [hd] at h
            dsimp only at h
            exact absurd h
              (cd_loop_true_not_false fuel name rest { r with current_entries := es } r')
    · rw [if_neg hm] at h
      exact ih r found r' h

/-- C9 (amended): `ls` and `open_file` never change the navigator state
(the whole object: entries, geometry, image), and a `cd` that fails with
`NotADirectoryException` leaves the state unchanged as well.  (A `cd`
failing with some *other* error after a name match may leave
`current_entries` partially replaced — see the counterexample.) -/
theorem c9_frame :
    (∀ r : Fat16Reader, ls r = (r.current_entries, r)) ∧
    (∀ (fuel : Nat) (r : Fat16Reader) (filename : List Nat),
        (open_file fuel r filename).2 = r) ∧
    (∀ (fuel : Nat) (r : Fat16Reader) (name : List Nat),
        (cd fuel r name).1 = .error .notADirectoryError → (cd fuel r name).2 = r) := by
  refine ⟨fun r => rfl, fun fuel r filename => rfl, ?_⟩
  intro fuel r name h
  unfold cd at h ⊢
  rcases hloop : cd_loop fuel name r false r.current_entries with ⟨res, r₁⟩
  rw [hloop] at h
  cases res with
  | error e =>
    dsimp only at h
    have hne := cd_loop_ne_nad fuel name r.current_entries r false
    rw [hloop] at hne
    simp only [Except.error.injEq] at h
    rw [h] at hne
    simp at hne
  | ok found =>
    dsimp only at h ⊢
    cases found with
    | false =>
      by_cases hp : r₁.do_print_on_commands = true
      · rw [if_pos ⟨rfl, hp⟩] at h
        exact absurd h (by simp)
      · have hr := cd_loop_ok_false_unchanged fuel name r.current_entries r false r₁ hloop
        rw [if_neg (fun hand => hp hand.2), if_pos ⟨rfl, by simpa using hp⟩]
        exact hr
    | true =>
      rw [if_neg (by simp), if_neg (by simp)] at h
      exact absurd h (by simp)

theorem c9_frame_witness :
    ls reader_two_cluster = (reader_two_cluster.current_entries, reader_two_cluster) ∧
    (open_file 5 reader_two_cluster [70]).2 = reader_two_cluster ∧
    (cd 5 reader_two_cluster [70]).2 = reader_two_cluster :=
  ⟨c9_frame.1 reader_two_cluster, c9_frame.2.1 5 reader_two_cluster [70],
   c9_frame.2.2 5 reader_two_cluster [70] rfl⟩

/-- C9 counterexample: the claim's closing assertion — only a
*successful* `cd` replaces `current_entries` — fails.  On
`img_truncated_cluster` the entry `A` matches, its chain `[2]` is
resolved, and `_cd_set_current_entries` first resets the entry list and
then hits `IndexError` reading cluster 2 (the image ends at byte 160):
`cd` propagates the error, yet `current_entries` is now `[]` instead of
the previous one-entry listing. -/
theorem c9_failing_cd_mutates_counterexample :
    cd 5 reader_truncated [65] =
      (.error .indexError, { reader_truncated with current_entries := [] }) ∧
    reader_truncated.current_entries = [entry_A_dir] ∧
    ([] : List DirectoryEntry) ≠ [entry_A_dir] :=
  ⟨rfl, rfl, by simp⟩

/-! ## C10: cd processes every match; the last one wins -/

theorem check_next_set (r : Fat16Reader) (x : List DirectoryEntry) (c : Nat) :
    check_next_in_fat { r with current_entries := x } c = check_next_in_fat r c := rfl

theorem cluster_start_set (r : Fat16Reader) (x : List DirectoryEntry) (c : Nat) :
    cluster_start { r with current_entries := x } c = cluster_start r c := rfl

theorem get_clusters_go_set (r : Fat16Reader) (x : List DirectoryEntry) :
    ∀ (fuel : Nat) (acc : List Nat) (t : Bool × Nat),
      get_clusters_go { r with current_entries := x } fuel acc t =
        get_clusters_go r fuel acc t := by
  intro fuel
  induction fuel with
  | zero =>
    intro acc t
    rcases t with ⟨b, c⟩
    cases b <;> rfl
  | succ f ih =>
    intro acc t
    rcases t with ⟨b, c⟩
    cases b
    · rfl
    · rw [get_clusters_go_succ, get_clusters_go_succ, check_next_set]
      cases hc : check_next_in_fat r c with
      | error e => rfl
      | ok t' =>
        dsimp only
        exact ih (acc ++ [c]) t'

theorem get_clusters_list_set (fuel : Nat) (r : Fat16Reader) (x : List DirectoryEntry)
    (entry : DirectoryEntry) :
    get_clusters_list fuel { r with current_entries := x } entry =
      get_clusters_list fuel r entry := by
  unfold get_clusters_list
  by_cases h0 : entry.cluster_number = 0
  · rw [if_pos h0, if_pos h0]
  · rw [if_neg h0, if_neg h0, check_next_set]
    cases hc : check_next_in_fat r entry.cluster_number with
    | error e => rfl
    | ok t =>
      dsimp only
      exact get_clusters_go_set r x fuel [entry.cluster_number] t

theorem clusters_dir_entries_set (r : Fat16Reader) (x : List DirectoryEntry) :
    ∀ chain : List Nat,
      clusters_dir_entries { r with current_entries := x } chain =
        clusters_dir_entries r chain := by
  intro chain
  induction chain with
  | nil => rfl
  | cons c cs ih =>
    show (match read_directory r.image (cluster_start r c) with
          | Except.error e => (Except.error e : Except Err (List DirectoryEntry))
          | Except.ok es =>
            match clusters_dir_entries { r with current_entries := x } cs with
            | Except.error e => Except.error e
            | Except.ok rest => Except.ok (es ++ rest)) =
        (match read_directory r.image (cluster_start r c) with
          | Except.error e => Except.error e
          | Except.ok es =>
            match clusters_dir_entries r cs with
            | Except.error e => Except.error e
            | Except.ok rest => Except.ok (es ++ rest))
    cases hd : read_directory r.image (cluster_start r c) with
    | error e => rfl
    | ok es =>
      dsimp only
      rw [ih]

theorem entries_for_match_set (fuel : Nat) (r : Fat16Reader) (x : List DirectoryEntry)
    (e : DirectoryEntry) :
    entries_for_match fuel { r with current_entries := x } e =
      entries_for_match fuel r e := by
  unfold entries_for_match
  rw [get_clusters_list_set]
  cases hg : get_clusters_list fuel r e with
  | error er => rfl
  | ok chain =>
    dsimp only
    by_cases hlen : chain.length > 0
    · rw [if_pos hlen, if_pos hlen]
      exact clusters_dir_entries_set r x chain
    · rw [if_neg hlen, if_neg hlen]

theorem cd_set_go_ok (r : Fat16Reader) :
    ∀ (chain : List Nat) (acc : List DirectoryEntry) (u : Unit) (r' : Fat16Reader),
      cd_set_go r acc chain = (.ok u, r') →
      ∃ es, clusters_dir_entries r chain = .ok es ∧
        r' = { r with current_entries := acc ++ es } := by
  intro chain
  induction chain with
  | nil =>
    intro acc u r' h
    simp only [cd_set_go, Prod.mk.injEq] at h
    exact ⟨[], rfl, by rw [← h.2]; simp⟩
  | cons c cs ih =>
    intro acc u r' h
    simp only [cd_set_go] at h
    cases hd : read_directory r.image (cluster_start r c) with
    | error e => rw [hd] at h; exact absurd h (by simp)
    | ok es1 =>
      rw [hd] at h
      dsimp only at h
      obtain ⟨es2, hc, hr⟩ := ih (acc ++ es1) u r' h
      refine ⟨es1 ++ es2, ?_, ?_⟩
      · show clusters_dir_entries r (c :: cs) = .ok (es1 ++ es2)
        unfold clusters_dir_entries
        rw [hd]
        dsimp only
        rw [hc]
      · rw [hr]
        simp

theorem cd_loop_no_match (fuel : Nat) (name : List Nat) :
    ∀ (l : List DirectoryEntry) (r : Fat16Reader) (found : Bool),
      (∀ e ∈ l, ¬("directory" ∈ e.attributes ∧ e.filename = name)) →
      cd_loop fuel name r found l = (.ok found, r) := by
  intro l
  induction l with
  | nil => intro r found _; simp [cd_loop]
  | cons e rest ih =>
    intro r found hall
    simp only [cd_loop]
    rw [if_neg (hall e (by simp))]
    exact ih r found (fun e' he' => hall e' (List.mem_cons_of_mem e he'))

theorem cd_loop_last_match (fuel : Nat) (name : List Nat) :
    ∀ (l : List DirectoryEntry) (r : Fat16Reader) (found fnl : Bool) (r' : Fat16Reader)
      (eL : DirectoryEntry),
      cd_loop fuel name r found l = (.ok fnl, r') →
      (l.filter (is_dir_match name)).getLast? = some eL →
      ∃ es, r' = { r with current_entries := es } ∧
        entries_for_match fuel r eL = .ok es := by
  intro l
  induction l with
  | nil =>
    intro r found fnl r' eL _ hlast
    simp [List.filter] at hlast
  | cons e rest ih =>
    intro r found fnl r' eL hloop hlast
    by_cases hm : "directory" ∈ e.attributes ∧ e.filename = name
    · have hfm : is_dir_match name e = true := by simp [is_dir_match, hm]
      rw [List.filter_cons_of_pos hfm] at hlast
      have key : ∀ (r₁ : Fat16Reader) (es1 : List DirectoryEntry),
          r₁ = { r with current_entries := es1 } →
          entries_for_match fuel r e = .ok es1 →
          cd_loop fuel name r₁ true rest = (.ok fnl, r') →
          ∃ es, r' = { r with current_entries := es } ∧
            entries_for_match fuel r eL = .ok es := by
        intro r₁ es1 hr1 hproc hrest_loop
        rcases hxs : rest.filter (is_dir_match name) with _ | ⟨y, ys⟩
        · rw [hxs] at hlast
          simp only [List.getLast?_singleton, Option.some.injEq] at hlast
          have hnm : ∀ e' ∈ rest, ¬("directory" ∈ e'.attributes ∧ e'.filename = name) := by
            intro e' he' hm'
            have hfm' : is_dir_match name e' = true := by simp [is_dir_match, hm']
            have hmem : e' ∈ rest.filter (is_dir_match name) :=
              List.mem_filter.mpr ⟨he', hfm'⟩
            rw [hxs] at hmem
            simp at hmem
          rw [cd_loop_no_match fuel name rest r₁ true hnm, Prod.mk.injEq] at hrest_loop
          refine ⟨es1, ?_, ?_⟩
          · rw [← hrest_loop.2, hr1]
          · rw [← hlast]
            exact hproc
        · rw [hxs] at hlast
          rw [List.getLast?_cons_cons] at hlast
          obtain ⟨es, hr'eq, hem⟩ := ih r₁ true fnl r' eL hrest_loop (by rw [hxs, hlast])
          rw [hr1] at hr'eq hem
          refine ⟨es, ?_, ?_⟩
          · rw [hr'eq]
          · rwa [entries_for_match_set] at hem
      simp only [cd_loop] at hloop
      rw [if_pos hm] at hloop
      cases hg : get_clusters_list fuel r e with
      | error er => rw [hg] at hloop; exact absurd hloop (by simp)
      | ok chain =>
        rw [hg] at hloop
        dsimp only at hloop
        by_cases hlen : chain.length > 0
        · rw [if_pos hlen] at hloop
          rcases hset : cd_set_current_entries r chain with ⟨sres, r₁⟩
          rw [hset] at hloop
          cases sres with
          | error er => exact absurd hloop (by simp)
          | ok u =>
            obtain ⟨es1, hces, hr1⟩ := cd_set_go_ok r chain [] u r₁ hset
            refine key r₁ es1 (by rw [hr1]; simp) ?_ hloop
            unfold entries_for_match
            rw [hg]
            dsimp only
            rw [if_pos hlen]
            exact hces
        · rw [if_neg hlen] at hloop
          cases hd : read_directory r.image (r.root_directory_offset : Int) with
          | error er => rw [hd] at hloop; exact absurd hloop (by simp)
          | ok es1 =>
            rw [hd] at hloop
            dsimp only at hloop
            refine key { r with current_entries := es1 } es1 rfl ?_ hloop
            unfold entries_for_match
            rw [hg]
            dsimp only
            rw [if_neg hlen]
            exact hd
    · have hfm : is_dir_match name e = false := by simp [is_dir_match, hm]
      rw [List.filter_cons_of_neg (by simp [hfm])] at hlast
      simp only [cd_loop] at hloop
      rw [if_neg hm] at hloop
      exact ih r found fnl r' eL hloop hlast

/-- C10: when the current listing holds more than one directory entry
matching the requested name, `cd` does not stop at the first match: the
loop iterates over the snapshot of the original entry list and processes
every match in listing order, so the final `current_entries` (and the
returned list) are the entries produced by the **last** matching
entry. -/
theorem c10_last_match_wins (fuel : Nat) (r : Fat16Reader) (name : List Nat)
    (l : List DirectoryEntry) (r' : Fat16Reader) (eL : DirectoryEntry)
    (hcd : cd fuel r name = (.ok (some l), r'))
    (_hmulti : 1 < (r.current_entries.filter (is_dir_match name)).length)
    (hlast : (r.current_entries.filter (is_dir_match name)).getLast? = some eL) :
    entries_for_match fuel r eL = .ok r'.current_entries ∧ l = r'.current_entries := by
  unfold cd at hcd
  rcases hloop : cd_loop fuel name r false r.current_entries with ⟨res, r₁⟩
  rw [hloop] at hcd
  cases res with
  | error e => exact absurd hcd (by simp)
  | ok found =>
    dsimp only at hcd
    cases found with
    | false =>
      by_cases hp : r₁.do_print_on_commands = true
      · rw [if_pos ⟨rfl, hp⟩] at hcd
        simp at hcd
      · rw [if_neg (fun hand => hp hand.2), if_pos ⟨rfl, by simpa using hp⟩] at hcd
        exact absurd hcd (by simp)
    | true =>
      rw [if_neg (by simp), if_neg (by simp)] at hcd
      rw [Prod.mk.injEq] at hcd
      obtain ⟨es, hr'eq, hem⟩ :=
        cd_loop_last_match fuel name r.current_entries r false true r₁ eL hloop hlast
      have hr' : r' = r₁ := hcd.2.symm
      have hl : l = r₁.current_entries := by
        have h1 := hcd.1
        simp only [Except.ok.injEq, Option.some.injEq] at h1
        exact h1.symm
      constructor
      · rw [hr', hr'eq]
        exact hem
      · rw [hr']
        exact hl

theorem c10_last_match_wins_witness :
    entries_for_match 5 reader_duplicate entry_A3 =
      .ok ({ reader_duplicate with current_entries := [entry_Y] }).current_entries ∧
    [entry_Y] = ({ reader_duplicate with current_entries := [entry_Y] }).current_entries :=
  c10_last_match_wins 5 reader_duplicate [65] [entry_Y]
    { reader_duplicate with current_entries := [entry_Y] } entry_A3 rfl (by decide) (by decide)

/-! ## C6: too-small images -/

theorem read_ushort_14_short (image : List Nat) (h : image.length < 16) :
    read_ushort image 14 = .error .structError := by
  have hlen : (py_slice image 14 16).length < 2 := by
    unfold py_slice
    simp only [List.length_drop, List.length_take]
    rw [if_neg (by norm_num : ¬((14 : Int) < 0)), if_neg (by norm_num : ¬((16 : Int) < 0))]
    omega
  unfold read_ushort
  have h16 : (14 : Int) + 2 = 16 := by norm_num
  rw [h16]
  rcases hs : py_slice image 14 16 with _ | ⟨b0, _ | ⟨b1, _ | ⟨b2, t⟩⟩⟩ <;>
    simp [hs] at hlen ⊢

/-- C6 (amended): an image shorter than 16 bytes cannot supply the two
bytes of the reserved-sector field at offset 14, so construction fails
with Python's untyped `struct.error` — not with a distinguishable
`ImageTooSmall` error, which the source never defines. -/
theorem c6_short_image_struct_error (image : List Nat) (b : Bool) (h : image.length < 16) :
    init_reader image b = .error .structError := by
  unfold init_reader
  rw [read_ushort_14_short image h]
  rfl

theorem c6_short_image_struct_error_witness :
    init_reader ([] : List Nat) false = .error .structError :=
  c6_short_image_struct_error [] false (by simp)

/-- C6 counterexample: a 24-byte all-zero image is far shorter than the
512-byte boot sector, yet `init_reader` succeeds (all geometry fields
parse as zero and byte 0 ends the root directory immediately), so the
claimed `ImageTooSmall` failure does not happen. -/
theorem c6_small_image_succeeds_counterexample :
    init_reader (List.replicate 24 0) false = .ok zero_reader ∧
    (List.replicate 24 0).length < 512 :=
  ⟨rfl, by simp⟩

end Fat16
